import Mathlib

/-!
Shallow embedding of the flow/artifact/undo engine in src/index.tsx.

Modelling conventions:
- A JS object used as an ordered string-keyed map (the flows record) is an
  association list whose order is insertion order, matching the enumeration
  order of non-index string keys in JS objects.
- JSON.parse(JSON.stringify(x)) deep cloning is the identity on values.
- Date.now() is passed in explicitly as a natural-number timestamp.
- DOM rendering, the Gemini chat session and localStorage persistence have no
  effect on the modelled state and are dropped; the state fields kept are
  exactly the data fields of AppState (isLoading, flows, activeFlowId,
  activeArtifactId, historyStack, redoStack).
-/

namespace Fluid

inductive Role where
  | user
  | model
deriving DecidableEq, Repr

structure MsgPart where
  text : String
deriving DecidableEq, Repr

structure Message where
  role : Role
  parts : List MsgPart
deriving DecidableEq, Repr

structure Artifact where
  id : String
  title : String
  type : String
  content : String
  language : Option String
deriving DecidableEq, Repr

structure Snapshot where
  id : String
  timestamp : Nat
  messageCount : Nat
  history : List Message
  artifacts : List Artifact
deriving DecidableEq, Repr

structure Flow where
  id : String
  name : String
  history : List Message
  snapshots : List Snapshot
  artifacts : List Artifact
deriving DecidableEq, Repr

/-- The data fields of the AppState record (aiChat, a handle to the external
Gemini session, is outside the modelled state). -/
structure AppState where
  isLoading : Bool
  flows : List (String × Flow)
  activeFlowId : Option String
  activeArtifactId : Option String
  historyStack : List Flow
  redoStack : List Flow
deriving DecidableEq, Repr

/-- Reading state.flows[id] on the JS object. -/
def findFlow : List (String × Flow) → String → Option Flow
  | [], _ => none
  | (k, f) :: rest, id => if k = id then some f else findFlow rest id

/-- Writing state.flows[id] = f on the JS object: an existing key keeps its
position, a new key is appended at the end (insertion order). -/
def setFlow (flows : List (String × Flow)) (id : String) (f : Flow) :
    List (String × Flow) :=
  if flows.any (fun p => p.1 == id) then
    flows.map (fun p => if p.1 = id then (id, f) else p)
  else flows ++ [(id, f)]

/-- The expression state.flows[state.activeFlowId]. -/
def activeFlow (s : AppState) : Option Flow :=
  s.activeFlowId.bind (fun id => findFlow s.flows id)

/-- pushUndoState (src/index.tsx lines 598-605): deep-clone the active Flow,
push it on historyStack, clear redoStack. The source would fail cloning when
activeFlowId references no Flow; that situation is unreachable (the id always
references an existing Flow) and is modelled as a no-op. -/
def pushUndoState (s : AppState) : AppState :=
  match s.activeFlowId with
  | none => s
  | some id =>
    match findFlow s.flows id with
    | none => s
    | some f =>
      { s with historyStack := s.historyStack ++ [f], redoStack := [] }

/-- The active-artifact fallback expression of initializeChat
(src/index.tsx line 703):
artifacts.length > 0 ? artifacts.find(a => a.id === cur)?.id || last.id : null.
The || reproduces JS falsiness: an empty-string id would fall through to the
last artifact. -/
def resolveActiveArtifact (arts : List Artifact) (cur : Option String) :
    Option String :=
  match arts.getLast? with
  | none => none
  | some lastA =>
    match cur.bind (fun cid => (arts.find? (fun a => a.id == cid)).map Artifact.id) with
    | none => some lastA.id
    | some fid => if fid = "" then some lastA.id else some fid

/-- initializeChat (src/index.tsx lines 646-708), state effects only: a hard
(non-soft) initialization clears both undo stacks; then the active artifact
pointer is resolved against the active Flow; isLoading ends false. DOM
re-rendering and the rebuilt Gemini session are dropped. -/
def initializeChat (softRefresh : Bool) (s : AppState) : AppState :=
  let s1 := if softRefresh then s
            else { s with historyStack := [], redoStack := [] }
  match s1.activeFlowId with
  | none => { s1 with isLoading := false }
  | some id =>
    match findFlow s1.flows id with
    | none => { s1 with isLoading := false }
    | some f =>
      { s1 with
          activeArtifactId := resolveActiveArtifact f.artifacts s1.activeArtifactId,
          isLoading := false }

/-- handleUndo (src/index.tsx lines 607-616). -/
def handleUndo (s : AppState) : AppState :=
  match s.historyStack.getLast? with
  | none => s
  | some prev =>
    match s.activeFlowId with
    | none => s
    | some id =>
      match findFlow s.flows id with
      | none => s
      | some cur =>
        initializeChat true
          { s with
              redoStack := s.redoStack ++ [cur],
              historyStack := s.historyStack.dropLast,
              flows := setFlow s.flows id prev }

/-- handleRedo (src/index.tsx lines 618-627). -/
def handleRedo (s : AppState) : AppState :=
  match s.redoStack.getLast? with
  | none => s
  | some next =>
    match s.activeFlowId with
    | none => s
    | some id =>
      match findFlow s.flows id with
      | none => s
      | some cur =>
        initializeChat true
          { s with
              historyStack := s.historyStack ++ [cur],
              redoStack := s.redoStack.dropLast,
              flows := setFlow s.flows id next }

/-- switchFlow (src/index.tsx lines 458-463): no-op when the id is already
active; otherwise move the pointer and run a hard initializeChat. -/
def switchFlow (id : String) (s : AppState) : AppState :=
  if s.activeFlowId = some id then s
  else initializeChat false { s with activeFlowId := some id }

/-- appendMessage (src/index.tsx lines 206-222), state effects only: when an
active Flow id is set, push one Message onto its history and persist; the
created DOM element is dropped. The source would fail pushing onto a missing
Flow; unreachable, modelled as a no-op. -/
def appendMessage (role : Role) (text : String) (s : AppState) : AppState :=
  match s.activeFlowId with
  | none => s
  | some id =>
    match findFlow s.flows id with
    | none => s
    | some f =>
      { s with
          flows := setFlow s.flows id
            { f with history := f.history ++ [{ role := role, parts := [{ text := text }] }] } }

/-- The argument mapping of a Gateway tool call, flattened to the fields the
dispatcher reads (fc.name plus args.title, args.type, args.content,
args.language, args.artifactId, args.newContent; the tasks array of
create_task_list only feeds the ephemeral rendered attachment and never
reaches the modelled state). -/
structure FC where
  name : String
  title : String
  type : String
  content : String
  language : Option String
  artifactId : String
  newContent : String
deriving DecidableEq, Repr

/-- In-place overwrite of args.newContent on the artifact found by
activeFlow.artifacts.find(a => a.id === args.artifactId): only the first
artifact with that id is changed. -/
def updateFirstContent : List Artifact → String → String → List Artifact
  | [], _, _ => []
  | a :: rest, aid, nc =>
    if a.id = aid then { a with content := nc } :: rest
    else a :: updateFirstContent rest aid nc

/-- handleFunctionCall (src/index.tsx lines 303-339). now is Date.now() at
the moment the present_artifact branch builds its id. The source reads
state.flows[state.activeFlowId!] up front and would fail in the artifact
branches when it is missing; unreachable, modelled as leaving the state after
the checkpoint. -/
def handleFunctionCall (now : Nat) (fc : FC) (s : AppState) : AppState :=
  let s1 := pushUndoState s
  if fc.name = "present_artifact" then
    match s.activeFlowId with
    | none => s1
    | some id =>
      match findFlow s.flows id with
      | none => s1
      | some flow =>
        let newArtifact : Artifact :=
          { id := "artifact-" ++ toString now, title := fc.title, type := fc.type,
            content := fc.content, language := fc.language }
        { s1 with
            flows := setFlow s1.flows id
              { flow with artifacts := flow.artifacts ++ [newArtifact] },
            activeArtifactId := some newArtifact.id }
  else if fc.name = "create_task_list" then
    appendMessage .model "I have created the following task list for you:" s1
  else if fc.name = "modify_artifact" then
    match s.activeFlowId with
    | none => s1
    | some id =>
      match findFlow s.flows id with
      | none => s1
      | some flow =>
        match flow.artifacts.find? (fun a => a.id == fc.artifactId) with
        | some art =>
          let s2 :=
            { s1 with
                flows := setFlow s1.flows id
                  { flow with
                      artifacts := updateFirstContent flow.artifacts fc.artifactId fc.newContent } }
          appendMessage .model ("I have updated the artifact: *" ++ art.title ++ "*.") s2
        | none =>
          appendMessage .model
            ("Apologies, I could not find an artifact with the ID " ++ fc.artifactId ++ ".") s1
  else s1

/-- One character of the whitespace classes stripped by the JS
String.prototype.trim call on the chat input (the common ASCII ones; other
Unicode whitespace never appears in the modelled inputs). -/
def isTrimmedWS (c : Char) : Bool :=
  c == ' ' || c == '\t' || c == '\n' || c == '\r'

/-- JS String.prototype.trim, modelled structurally on the character list. -/
def jsTrim (t : String) : String :=
  String.mk (((t.data.dropWhile isTrimmedWS).reverse.dropWhile isTrimmedWS).reverse)

/-- handleFormSubmit (src/index.tsx lines 358-393) up to the Gateway
round-trip: a submission is rejected while isLoading or when the input trims
to empty; an accepted submission checkpoints, appends the trimmed user
Message, and sets isLoading. What happens after the await (the model reply or
the apology on failure) is outside this step. -/
def handleFormSubmit (input : String) (s : AppState) : AppState :=
  if s.isLoading then s
  else
    let userMessage := jsTrim input
    if userMessage = "" then s
    else { appendMessage .user userMessage (pushUndoState s) with isLoading := true }

/-- Refusal to delete the last remaining Flow (the alert path of deleteFlow). -/
inductive DeleteError where
  | lastFlow
deriving DecidableEq, Repr

/-- deleteFlow (src/index.tsx lines 486-500), on the path where the user
confirms the dialog: refused (store untouched) when only one Flow remains;
otherwise checkpoint, remove the key, reassign activeFlowId to the first
remaining key in insertion order if the active Flow was deleted, persist and
hard-reinitialize. -/
def deleteFlow (id : String) (s : AppState) : Except DeleteError AppState :=
  if s.flows.length ≤ 1 then .error .lastFlow
  else
    let s1 := pushUndoState s
    let remaining := s1.flows.filter (fun p => p.1 != id)
    let s2 := { s1 with flows := remaining }
    let s3 :=
      if s2.activeFlowId = some id then
        { s2 with activeFlowId := remaining.head?.map Prod.fst }
      else s2
    .ok (initializeChat false s3)

/-! ### Helper lemmas about the embedded operations -/

theorem findFlow_map_set (fs : List (String × Flow)) (id : String) (f : Flow)
    (h : fs.any (fun p => p.1 == id) = true) :
    findFlow (fs.map (fun p => if p.1 = id then (id, f) else p)) id = some f := by
  induction fs with
  | nil => simp at h
  | cons p rest ih =>
    by_cases hk : p.1 = id
    · simp only [List.map_cons, if_pos hk]
      simp [findFlow]
    · have h' : rest.any (fun p => p.1 == id) = true := by
        simp only [List.any_cons, Bool.or_eq_true, beq_iff_eq] at h
        exact h.resolve_left hk
      simp only [List.map_cons, if_neg hk]
      simp [findFlow, hk, ih h']

theorem findFlow_append_absent (fs : List (String × Flow)) (id : String) (f : Flow)
    (h : fs.any (fun p => p.1 == id) = false) :
    findFlow (fs ++ [(id, f)]) id = some f := by
  induction fs with
  | nil => simp [findFlow]
  | cons p rest ih =>
    simp only [List.any_cons, Bool.or_eq_false_iff, beq_eq_false_iff_ne, ne_eq] at h
    simp [findFlow, h.1, ih h.2]

theorem findFlow_setFlow_self (fs : List (String × Flow)) (id : String) (f : Flow) :
    findFlow (setFlow fs id f) id = some f := by
  unfold setFlow
  cases h : fs.any (fun p => p.1 == id) with
  | true => simpa [h] using findFlow_map_set fs id f h
  | false => simpa [h] using findFlow_append_absent fs id f h

theorem initializeChat_flows (sr : Bool) (s : AppState) :
    (initializeChat sr s).flows = s.flows := by
  unfold initializeChat
  cases sr <;> cases h : s.activeFlowId with
  | none => simp [h]
  | some id => cases hf : findFlow s.flows id <;> simp [h, hf]

theorem initializeChat_activeFlowId (sr : Bool) (s : AppState) :
    (initializeChat sr s).activeFlowId = s.activeFlowId := by
  unfold initializeChat
  cases sr <;> cases h : s.activeFlowId with
  | none => simp [h]
  | some id => cases hf : findFlow s.flows id <;> simp [h, hf]

theorem activeFlow_initializeChat (sr : Bool) (s : AppState) :
    activeFlow (initializeChat sr s) = activeFlow s := by
  unfold activeFlow
  rw [initializeChat_activeFlowId, initializeChat_flows]

theorem initializeChat_soft_historyStack (s : AppState) :
    (initializeChat true s).historyStack = s.historyStack := by
  unfold initializeChat
  cases h : s.activeFlowId with
  | none => simp [h]
  | some id => cases hf : findFlow s.flows id <;> simp [h, hf]

theorem initializeChat_soft_redoStack (s : AppState) :
    (initializeChat true s).redoStack = s.redoStack := by
  unfold initializeChat
  cases h : s.activeFlowId with
  | none => simp [h]
  | some id => cases hf : findFlow s.flows id <;> simp [h, hf]

theorem pushUndoState_eq (s : AppState) (id : String) (f : Flow)
    (hid : s.activeFlowId = some id) (hf : findFlow s.flows id = some f) :
    pushUndoState s
      = { s with historyStack := s.historyStack ++ [f], redoStack := [] } := by
  simp only [pushUndoState, hid, hf]

theorem handleUndo_eq (s : AppState) (id : String) (cur prev : Flow)
    (hid : s.activeFlowId = some id) (hf : findFlow s.flows id = some cur)
    (hprev : s.historyStack.getLast? = some prev) :
    handleUndo s
      = initializeChat true
          { s with
              redoStack := s.redoStack ++ [cur],
              historyStack := s.historyStack.dropLast,
              flows := setFlow s.flows id prev } := by
  simp only [handleUndo, hprev, hid, hf]

theorem handleRedo_eq (s : AppState) (id : String) (cur next : Flow)
    (hid : s.activeFlowId = some id) (hf : findFlow s.flows id = some cur)
    (hnext : s.redoStack.getLast? = some next) :
    handleRedo s
      = initializeChat true
          { s with
              historyStack := s.historyStack ++ [cur],
              redoStack := s.redoStack.dropLast,
              flows := setFlow s.flows id next } := by
  simp only [handleRedo, hnext, hid, hf]

theorem activeFlow_eq (s : AppState) (id : String) (f : Flow)
    (hid : s.activeFlowId = some id) (hf : findFlow s.flows id = some f) :
    activeFlow s = some f := by
  simp [activeFlow, hid, hf]

theorem handleUndo_fields (s : AppState) (id : String) (cur prev : Flow)
    (hid : s.activeFlowId = some id) (hf : findFlow s.flows id = some cur)
    (hprev : s.historyStack.getLast? = some prev) :
    (handleUndo s).activeFlowId = some id
  ∧ (handleUndo s).flows = setFlow s.flows id prev
  ∧ (handleUndo s).historyStack = s.historyStack.dropLast
  ∧ (handleUndo s).redoStack = s.redoStack ++ [cur] := by
  rw [handleUndo_eq s id cur prev hid hf hprev]
  refine ⟨?_, ?_, ?_, ?_⟩
  · rw [initializeChat_activeFlowId]; exact hid
  · rw [initializeChat_flows]
  · rw [initializeChat_soft_historyStack]
  · rw [initializeChat_soft_redoStack]

theorem handleRedo_fields (s : AppState) (id : String) (cur next : Flow)
    (hid : s.activeFlowId = some id) (hf : findFlow s.flows id = some cur)
    (hnext : s.redoStack.getLast? = some next) :
    (handleRedo s).activeFlowId = some id
  ∧ (handleRedo s).flows = setFlow s.flows id next
  ∧ (handleRedo s).historyStack = s.historyStack ++ [cur]
  ∧ (handleRedo s).redoStack = s.redoStack.dropLast := by
  rw [handleRedo_eq s id cur next hid hf hnext]
  refine ⟨?_, ?_, ?_, ?_⟩
  · rw [initializeChat_activeFlowId]; exact hid
  · rw [initializeChat_flows]
  · rw [initializeChat_soft_historyStack]
  · rw [initializeChat_soft_redoStack]

theorem pushUndoState_flows (s : AppState) : (pushUndoState s).flows = s.flows := by
  unfold pushUndoState
  cases h : s.activeFlowId with
  | none => rfl
  | some id => cases hf : findFlow s.flows id <;> simp [h, hf]

theorem pushUndoState_activeFlowId (s : AppState) :
    (pushUndoState s).activeFlowId = s.activeFlowId := by
  unfold pushUndoState
  cases h : s.activeFlowId with
  | none => exact h
  | some id => cases hf : findFlow s.flows id <;> simp [h, hf]

theorem appendMessage_eq (role : Role) (text : String) (s : AppState)
    (id : String) (f : Flow)
    (hid : s.activeFlowId = some id) (hf : findFlow s.flows id = some f) :
    appendMessage role text s
      = { s with flows :=
          (setFlow s.flows id
            ({ f with history := f.history ++ [{ role := role, parts := [{ text := text }] }] })) } := by
  simp only [appendMessage, hid, hf]

theorem initializeChat_hard_clears (s : AppState) :
    (initializeChat false s).historyStack = []
  ∧ (initializeChat false s).redoStack = [] := by
  unfold initializeChat
  cases h : s.activeFlowId with
  | none => simp [h]
  | some id => cases hf : findFlow s.flows id <;> simp [h, hf]

/-! ### C1 -/

/-- C1: with a non-empty undo stack, undo() followed by redo() restores the
active Flow to the exact value it had immediately before the undo; with a
non-empty redo stack, redo() followed by undo() restores the active Flow to
its value immediately before the redo. -/
theorem undo_redo_roundtrip_restores (s : AppState) (id : String) (cur : Flow)
    (hid : s.activeFlowId = some id) (hf : findFlow s.flows id = some cur) :
    (s.historyStack ≠ [] → activeFlow (handleRedo (handleUndo s)) = activeFlow s)
  ∧ (s.redoStack ≠ [] → activeFlow (handleUndo (handleRedo s)) = activeFlow s) := by
  constructor
  · intro hne
    have hprev := List.getLast?_eq_getLast s.historyStack hne
    obtain ⟨h1, h2, h3, h4⟩ :=
      handleUndo_fields s id cur (s.historyStack.getLast hne) hid hf hprev
    have huf : findFlow (handleUndo s).flows id = some (s.historyStack.getLast hne) := by
      rw [h2]; exact findFlow_setFlow_self s.flows id _
    have hured : (handleUndo s).redoStack.getLast? = some cur := by
      rw [h4]; exact List.getLast?_concat _
    rw [handleRedo_eq (handleUndo s) id (s.historyStack.getLast hne) cur h1 huf hured]
    rw [activeFlow_initializeChat]
    rw [activeFlow_eq s id cur hid hf]
    exact activeFlow_eq _ id cur h1 (findFlow_setFlow_self _ id cur)
  · intro hne
    have hnext := List.getLast?_eq_getLast s.redoStack hne
    obtain ⟨h1, h2, h3, h4⟩ :=
      handleRedo_fields s id cur (s.redoStack.getLast hne) hid hf hnext
    have huf : findFlow (handleRedo s).flows id = some (s.redoStack.getLast hne) := by
      rw [h2]; exact findFlow_setFlow_self s.flows id _
    have huhis : (handleRedo s).historyStack.getLast? = some cur := by
      rw [h3]; exact List.getLast?_concat _
    rw [handleUndo_eq (handleRedo s) id (s.redoStack.getLast hne) cur h1 huf huhis]
    rw [activeFlow_initializeChat]
    rw [activeFlow_eq s id cur hid hf]
    exact activeFlow_eq _ id cur h1 (findFlow_setFlow_self _ id cur)

/-! ### Concrete fixtures used by witnesses and counterexamples -/

def artifactDoc : Artifact :=
  { id := "artifact-1", title := "Doc", type := "document", content := "hello",
    language := none }

def flowAlpha : Flow :=
  { id := "A", name := "Alpha", history := [], snapshots := [],
    artifacts := [artifactDoc] }

def flowBeta : Flow :=
  { id := "B", name := "Beta", history := [], snapshots := [], artifacts := [] }

/-- A state with two Flows, Flow A active, and one entry on each undo stack. -/
def baseState : AppState :=
  { isLoading := false, flows := [("A", flowAlpha), ("B", flowBeta)],
    activeFlowId := some "A", activeArtifactId := none,
    historyStack := [flowBeta], redoStack := [flowBeta] }

/-- A tool call with a name outside the three recognized ones. -/
def fcUnknown : FC :=
  { name := "rename_flow", title := "", type := "", content := "",
    language := none, artifactId := "", newContent := "" }

/-- A present_artifact tool call. -/
def fcPresent : FC :=
  { name := "present_artifact", title := "Plan", type := "plan", content := "p1",
    language := none, artifactId := "", newContent := "" }

/-- A modify_artifact tool call targeting the id artifact-1. -/
def fcModifyHit : FC :=
  { name := "modify_artifact", title := "", type := "", content := "",
    language := none, artifactId := "artifact-1", newContent := "updated" }

/-- A modify_artifact tool call targeting an id absent from every fixture. -/
def fcModifyMiss : FC :=
  { name := "modify_artifact", title := "", type := "", content := "",
    language := none, artifactId := "artifact-404", newContent := "updated" }

/-- Witness for C1 at baseState, whose undo and redo stacks are non-empty. -/
theorem undo_redo_roundtrip_restores_witness :
    baseState.historyStack ≠ []
  ∧ baseState.redoStack ≠ []
  ∧ activeFlow (handleRedo (handleUndo baseState)) = activeFlow baseState
  ∧ activeFlow (handleUndo (handleRedo baseState)) = activeFlow baseState := by
  have h := undo_redo_roundtrip_restores baseState "A" flowAlpha rfl rfl
  exact ⟨by decide, by decide, h.1 (by decide), h.2 (by decide)⟩

/-! ### C2 -/

/-- C2 counterexample: at baseState the undo stack is non-empty, yet switching
the active Flow from A to B leaves an empty undo stack, so switching does not
preserve the stacks. -/
theorem switchFlow_clears_stacks_counterexample :
    baseState.historyStack ≠ []
  ∧ (switchFlow "B" baseState).historyStack = [] := by
  constructor
  · decide
  · rfl

/-- C2 amended: switching the active flow from A to a different flow B resets
both the undo stack and the redo stack to empty (switchFlow runs a hard
re-initialization, which clears both stacks unconditionally). -/
theorem switchFlow_resets_stacks (id : String) (s : AppState)
    (h : s.activeFlowId ≠ some id) :
    (switchFlow id s).historyStack = [] ∧ (switchFlow id s).redoStack = [] := by
  unfold switchFlow
  rw [if_neg h]
  exact initializeChat_hard_clears _

/-- Witness for the amended C2 at baseState. -/
theorem switchFlow_resets_stacks_witness :
    (switchFlow "B" baseState).historyStack = []
  ∧ (switchFlow "B" baseState).redoStack = [] :=
  switchFlow_resets_stacks "B" baseState (by decide)

/-! ### C3 -/

/-- C3 counterexample: at baseState the submission "hi" is accepted, and the
undo stack after the submit boundary differs from the one before it, so the
submit boundary does not leave the undo stack unchanged. -/
theorem submit_checkpoint_counterexample :
    baseState.isLoading = false
  ∧ jsTrim "hi" ≠ ""
  ∧ (handleFormSubmit "hi" baseState).historyStack ≠ baseState.historyStack := by
  refine ⟨rfl, by decide, by decide⟩

/-- C3 amended: an accepted user submission pushes exactly one checkpoint (a
copy of the active Flow) onto the undo stack and clears the redo stack at the
submit boundary, and then appends the trimmed user Message to the active Flow
and persists. -/
theorem submit_pushes_checkpoint (input : String) (s : AppState)
    (id : String) (f : Flow)
    (hload : s.isLoading = false) (htrim : jsTrim input ≠ "")
    (hid : s.activeFlowId = some id) (hf : findFlow s.flows id = some f) :
    (handleFormSubmit input s).historyStack = s.historyStack ++ [f]
  ∧ (handleFormSubmit input s).redoStack = []
  ∧ findFlow (handleFormSubmit input s).flows id
      = some ({ f with history := f.history ++
          [{ role := .user, parts := [{ text := jsTrim input }] }] }) := by
  have hpush := pushUndoState_eq s id f hid hf
  have hstep : handleFormSubmit input s
      = { appendMessage .user (jsTrim input) (pushUndoState s) with isLoading := true } := by
    unfold handleFormSubmit
    rw [hload]
    simp only [Bool.false_eq_true, if_false, if_neg htrim]
  have happ : appendMessage .user (jsTrim input) (pushUndoState s)
      = { pushUndoState s with flows :=
          (setFlow (pushUndoState s).flows id
            ({ f with history := f.history ++
                [{ role := .user, parts := [{ text := jsTrim input }] }] })) } := by
    apply appendMessage_eq
    · rw [hpush]; exact hid
    · rw [hpush]; exact hf
  rw [hstep, happ, hpush]
  exact ⟨rfl, rfl, findFlow_setFlow_self _ id _⟩

/-- Witness for the amended C3 at baseState with input " hello ". -/
theorem submit_pushes_checkpoint_witness :
    (handleFormSubmit " hello " baseState).historyStack
      = baseState.historyStack ++ [flowAlpha]
  ∧ (handleFormSubmit " hello " baseState).redoStack = []
  ∧ findFlow (handleFormSubmit " hello " baseState).flows "A"
      = some ({ flowAlpha with history := flowAlpha.history ++
          [{ role := .user, parts := [{ text := jsTrim " hello " }] }] }) :=
  submit_pushes_checkpoint " hello " baseState "A" flowAlpha rfl (by decide) rfl rfl

/-! ### C7 -/

theorem pushUndoState_iterate (s : AppState) (id : String) (f : Flow)
    (hid : s.activeFlowId = some id) (hf : findFlow s.flows id = some f) :
    ∀ n : Nat,
      (pushUndoState^[n] s).historyStack.length = s.historyStack.length + n
    ∧ (pushUndoState^[n] s).activeFlowId = s.activeFlowId
    ∧ (pushUndoState^[n] s).flows = s.flows := by
  intro n
  induction n with
  | zero => simp
  | succ k ih =>
    obtain ⟨ih1, ih2, ih3⟩ := ih
    have hid2 : (pushUndoState^[k] s).activeFlowId = some id := by rw [ih2]; exact hid
    have hf2 : findFlow (pushUndoState^[k] s).flows id = some f := by rw [ih3]; exact hf
    rw [Function.iterate_succ_apply', pushUndoState_eq _ id f hid2 hf2]
    refine ⟨?_, ?_, ?_⟩
    · simp only [List.length_append, List.length_cons, List.length_nil, ih1]
      omega
    · exact ih2
    · exact ih3

/-- C7: a checkpoint (pushUndoState) clears the redo stack unconditionally
and pushes a copy of the active Flow value onto the undo stack (in this value
semantics the pushed entry equals the Flow at push time and shares no mutable
structure with it); after n checkpoints starting from an empty undo stack the
undo stack has exactly n entries. -/
theorem checkpoint_clears_redo_and_counts (s : AppState) (id : String)
    (f : Flow) (n : Nat)
    (hid : s.activeFlowId = some id) (hf : findFlow s.flows id = some f) :
    (pushUndoState s).redoStack = []
  ∧ (pushUndoState s).historyStack = s.historyStack ++ [f]
  ∧ (s.historyStack = [] → (pushUndoState^[n] s).historyStack.length = n) := by
  rw [pushUndoState_eq s id f hid hf]
  refine ⟨rfl, rfl, ?_⟩
  intro hemp
  have h := (pushUndoState_iterate s id f hid hf n).1
  rw [hemp] at h
  simpa using h

/-- Witness for C7 at baseState (whose redo stack is non-empty), with three
checkpoints from an emptied undo stack. -/
theorem checkpoint_clears_redo_and_counts_witness :
    (pushUndoState baseState).redoStack = []
  ∧ (pushUndoState baseState).historyStack = baseState.historyStack ++ [flowAlpha]
  ∧ (pushUndoState^[3] { baseState with historyStack := [] }).historyStack.length = 3 := by
  have h1 := checkpoint_clears_redo_and_counts baseState "A" flowAlpha 3 rfl rfl
  have h2 := checkpoint_clears_redo_and_counts
    { baseState with historyStack := [] } "A" flowAlpha 3 rfl rfl
  exact ⟨h1.1, h1.2.1, h2.2.2 rfl⟩

/-! ### C9 -/

/-- C9: dispatching a tool call whose name is none of present_artifact,
create_task_list, modify_artifact falls through the switch: the flows map
(hence the active Flow with its history, artifacts, snapshots and name) is
unchanged, no Message is produced, the active-artifact pointer is unchanged,
and exactly one checkpoint was pushed (never two); as a total function the
dispatch cannot throw. -/
theorem unknown_tool_is_noop_after_checkpoint (now : Nat) (fc : FC)
    (s : AppState) (id : String) (f : Flow)
    (h1 : fc.name ≠ "present_artifact") (h2 : fc.name ≠ "create_task_list")
    (h3 : fc.name ≠ "modify_artifact")
    (hid : s.activeFlowId = some id) (hf : findFlow s.flows id = some f) :
    (handleFunctionCall now fc s).flows = s.flows
  ∧ (handleFunctionCall now fc s).activeArtifactId = s.activeArtifactId
  ∧ (handleFunctionCall now fc s).historyStack = s.historyStack ++ [f]
  ∧ (handleFunctionCall now fc s).redoStack = [] := by
  have hstep : handleFunctionCall now fc s = pushUndoState s := by
    simp only [handleFunctionCall, if_neg h1, if_neg h2, if_neg h3]
  rw [hstep, pushUndoState_eq s id f hid hf]
  exact ⟨rfl, rfl, rfl, rfl⟩

/-- Witness for C9 at baseState with the unrecognized tool name rename_flow. -/
theorem unknown_tool_is_noop_after_checkpoint_witness :
    (handleFunctionCall 9 fcUnknown baseState).flows = baseState.flows
  ∧ (handleFunctionCall 9 fcUnknown baseState).activeArtifactId
      = baseState.activeArtifactId
  ∧ (handleFunctionCall 9 fcUnknown baseState).historyStack
      = baseState.historyStack ++ [flowAlpha]
  ∧ (handleFunctionCall 9 fcUnknown baseState).redoStack = [] :=
  unknown_tool_is_noop_after_checkpoint 9 fcUnknown baseState "A" flowAlpha
    (by decide) (by decide) (by decide) rfl rfl

/-! ### C4 -/

/-- C4: a modify_artifact call whose artifactId is absent from the active
Flow leaves the artifact sequence byte-for-byte unchanged and appends exactly
one model-authored notice Message naming the missing id; the resulting
history is the old history plus that single notice, so no other Message is
altered (the artifacts field of the resulting Flow is the unchanged
flow.artifacts). -/
theorem modify_missing_appends_single_notice (now : Nat) (fc : FC)
    (s : AppState) (id : String) (flow : Flow)
    (hname : fc.name = "modify_artifact")
    (hid : s.activeFlowId = some id) (hf : findFlow s.flows id = some flow)
    (habsent : ∀ a ∈ flow.artifacts, a.id ≠ fc.artifactId) :
    findFlow (handleFunctionCall now fc s).flows id
      = some ({ flow with history := flow.history ++
          [{ role := .model, parts := [{ text := "Apologies, I could not find an artifact with the ID " ++ fc.artifactId ++ "." }] }] }) := by
  have hfind : flow.artifacts.find? (fun a => a.id == fc.artifactId) = none :=
    List.find?_eq_none.mpr (fun a ha => by simp [habsent a ha])
  simp only [handleFunctionCall, hname]
  rw [if_neg (by decide), if_neg (by decide), if_pos trivial]
  simp only [hid, hf, hfind, appendMessage, pushUndoState_eq s id flow hid hf,
    findFlow_setFlow_self]

/-- Witness for C4 at baseState with a modify_artifact call on the missing
id artifact-404. -/
theorem modify_missing_appends_single_notice_witness :
    findFlow (handleFunctionCall 4 fcModifyMiss baseState).flows "A"
      = some ({ flowAlpha with history := flowAlpha.history ++
          [{ role := .model, parts := [{ text := "Apologies, I could not find an artifact with the ID " ++ fcModifyMiss.artifactId ++ "." }] }] }) :=
  modify_missing_appends_single_notice 4 fcModifyMiss baseState "A" flowAlpha
    rfl rfl rfl (by decide)

/-! ### C10 -/

/-- C10: a modify_artifact call whose artifactId exists in the active Flow,
besides overwriting the found artifact content in place, appends exactly one
model-authored confirmation Message naming the artifact title to the Flow
history and persists it. -/
theorem modify_existing_appends_confirmation (now : Nat) (fc : FC)
    (s : AppState) (id : String) (flow : Flow) (art : Artifact)
    (hname : fc.name = "modify_artifact")
    (hid : s.activeFlowId = some id) (hf : findFlow s.flows id = some flow)
    (hfind : flow.artifacts.find? (fun a => a.id == fc.artifactId) = some art) :
    findFlow (handleFunctionCall now fc s).flows id
      = some ({ flow with
          artifacts := updateFirstContent flow.artifacts fc.artifactId fc.newContent,
          history := flow.history ++
            [{ role := .model, parts := [{ text := "I have updated the artifact: *" ++ art.title ++ "*." }] }] }) := by
  simp only [handleFunctionCall, hname]
  rw [if_neg (by decide), if_neg (by decide), if_pos trivial]
  simp only [hid, hf, hfind, appendMessage, pushUndoState_eq s id flow hid hf,
    findFlow_setFlow_self]

/-- Witness for C10 at baseState with a modify_artifact call on the present
id artifact-1. -/
theorem modify_existing_appends_confirmation_witness :
    findFlow (handleFunctionCall 10 fcModifyHit baseState).flows "A"
      = some ({ flowAlpha with
          artifacts := updateFirstContent flowAlpha.artifacts fcModifyHit.artifactId fcModifyHit.newContent,
          history := flowAlpha.history ++
            [{ role := .model, parts := [{ text := "I have updated the artifact: *" ++ artifactDoc.title ++ "*." }] }] }) :=
  modify_existing_appends_confirmation 10 fcModifyHit baseState "A" flowAlpha
    artifactDoc rfl rfl rfl (by decide)

/-! ### C5 -/

/-- C5: deleting the sole remaining Flow is refused with LastFlowError (the
refusal happens before any mutation, so the store is unchanged); with at
least two Flows a confirmed delete succeeds; a successful delete of a
non-active Flow leaves activeFlowId unchanged; a successful delete of the
active Flow reassigns activeFlowId to the key of the first remaining Flow in
insertion order. -/
theorem deleteFlow_spec (id : String) (s : AppState) :
    (s.flows.length ≤ 1 → deleteFlow id s = .error .lastFlow)
  ∧ (2 ≤ s.flows.length → ∃ s2, deleteFlow id s = .ok s2)
  ∧ (∀ s2, deleteFlow id s = .ok s2 → s.activeFlowId ≠ some id →
      s2.activeFlowId = s.activeFlowId)
  ∧ (∀ s2, deleteFlow id s = .ok s2 →
      s.activeFlowId = some id →
      s2.activeFlowId = (s.flows.filter (fun p => p.1 != id)).head?.map Prod.fst) := by
  have hframe : ∀ s2, deleteFlow id s = .ok s2 →
      s2.activeFlowId
        = (if (pushUndoState s).activeFlowId = some id
            then ((pushUndoState s).flows.filter (fun p => p.1 != id)).head?.map Prod.fst
            else (pushUndoState s).activeFlowId) := by
    intro s2 hok
    unfold deleteFlow at hok
    by_cases hle : s.flows.length ≤ 1
    · rw [if_pos hle] at hok; cases hok
    · rw [if_neg hle] at hok
      simp only [Except.ok.injEq] at hok
      rw [← hok, initializeChat_activeFlowId]
      by_cases hc : (pushUndoState s).activeFlowId = some id
      · rw [if_pos hc, if_pos hc]
      · rw [if_neg hc, if_neg hc]
  refine ⟨?_, ?_, ?_, ?_⟩
  · intro hle
    unfold deleteFlow
    rw [if_pos hle]
  · intro h2
    unfold deleteFlow
    rw [if_neg (by omega)]
    exact ⟨_, rfl⟩
  · intro s2 hok hne
    rw [hframe s2 hok, pushUndoState_activeFlowId, if_neg hne]
  · intro s2 hok hyes
    rw [hframe s2 hok, pushUndoState_activeFlowId, pushUndoState_flows, if_pos hyes]

/-- Witness for C5: on a single-Flow store the delete fails; deleting the
non-active Flow B keeps A active; deleting the active Flow A moves
activeFlowId to B, the first remaining Flow. -/
theorem deleteFlow_spec_witness :
    deleteFlow "A" ({ baseState with flows := [("A", flowAlpha)] }) = .error .lastFlow
  ∧ (deleteFlow "B" baseState).map AppState.activeFlowId = .ok (some "A")
  ∧ (deleteFlow "A" baseState).map AppState.activeFlowId = .ok (some "B") := by
  refine ⟨?_, ?_, ?_⟩
  · exact (deleteFlow_spec "A" _).1 (by decide)
  · obtain ⟨s2, hok⟩ := (deleteFlow_spec "B" baseState).2.1 (by decide)
    have ha := (deleteFlow_spec "B" baseState).2.2.1 s2 hok (by decide)
    rw [hok, Except.map, ha]
    rfl
  · obtain ⟨s2, hok⟩ := (deleteFlow_spec "A" baseState).2.1 (by decide)
    have ha := (deleteFlow_spec "A" baseState).2.2.2 s2 hok rfl
    rw [hok, Except.map, ha]
    rfl

/-! ### C8 -/

/-- C8: the active-artifact resolution rule: on an empty artifact sequence
the pointer resolves to null; an unset pointer, or one naming no artifact in
the sequence, resolves to the id of the last artifact in sequence order; a
pointer naming an existing artifact is kept (for the non-empty ids the
program generates; an empty-string id would be falsy in the source and fall
back to the last artifact); and initializeChat applies exactly this rule to
the active Flow pointer whenever it runs. -/
theorem active_artifact_resolution (arts : List Artifact) (cur : Option String)
    (cid : String) (a : Artifact) (sr : Bool) (s : AppState) (f : Flow) :
    resolveActiveArtifact [] cur = none
  ∧ (arts ≠ [] → resolveActiveArtifact arts none = arts.getLast?.map Artifact.id)
  ∧ ((∀ b ∈ arts, b.id ≠ cid) →
      resolveActiveArtifact arts (some cid) = arts.getLast?.map Artifact.id)
  ∧ (cid ≠ "" → a ∈ arts → a.id = cid →
      resolveActiveArtifact arts (some cid) = some cid)
  ∧ (activeFlow s = some f →
      (initializeChat sr s).activeArtifactId
        = resolveActiveArtifact f.artifacts s.activeArtifactId) := by
  refine ⟨?_, ?_, ?_, ?_, ?_⟩
  · rfl
  · intro hne
    have hlast := List.getLast?_eq_getLast arts hne
    simp only [resolveActiveArtifact, hlast]
    simp
  · intro hab
    cases hlast : arts.getLast? with
    | none =>
      have harts : arts = [] := List.getLast?_eq_none_iff.mp hlast
      subst harts
      rfl
    | some lastA =>
      have hfind : arts.find? (fun b => b.id == cid) = none :=
        List.find?_eq_none.mpr (fun b hb => by simp [hab b hb])
      simp only [resolveActiveArtifact, hlast, Option.some_bind]
      rw [hfind]
      simp
  · intro hcid ha haid
    have hne : arts ≠ [] := List.ne_nil_of_mem ha
    have hlast := List.getLast?_eq_getLast arts hne
    cases hfind : arts.find? (fun b => b.id == cid) with
    | none =>
      exact absurd (List.find?_eq_none.mp hfind a ha) (by simp [haid])
    | some b =>
      have hb : b.id = cid := by
        have := List.find?_some hfind
        simpa using this
      simp only [resolveActiveArtifact, hlast, Option.some_bind]
      rw [hfind]
      simp [hb, hcid]
  · intro hact
    obtain ⟨id0, hi, hf0⟩ := Option.bind_eq_some.mp hact
    cases sr <;> simp [initializeChat, hi, hf0]

/-- Witness for C8 on concrete artifact sequences and at baseState. -/
theorem active_artifact_resolution_witness :
    resolveActiveArtifact [artifactDoc] none = [artifactDoc].getLast?.map Artifact.id
  ∧ resolveActiveArtifact [artifactDoc] (some "zz") = [artifactDoc].getLast?.map Artifact.id
  ∧ resolveActiveArtifact [artifactDoc] (some "artifact-1") = some "artifact-1"
  ∧ (initializeChat true baseState).activeArtifactId
      = resolveActiveArtifact flowAlpha.artifacts baseState.activeArtifactId := by
  refine ⟨?_, ?_, ?_, ?_⟩
  · exact (active_artifact_resolution [artifactDoc] none "zz" artifactDoc
      true baseState flowAlpha).2.1 (by decide)
  · exact (active_artifact_resolution [artifactDoc] (some "zz") "zz" artifactDoc
      true baseState flowAlpha).2.2.1 (by decide)
  · exact (active_artifact_resolution [artifactDoc] (some "artifact-1") "artifact-1"
      artifactDoc true baseState flowAlpha).2.2.2.1 (by decide) (by decide) (by decide)
  · exact (active_artifact_resolution [] none "" artifactDoc
      true baseState flowAlpha).2.2.2.2 rfl

/-! ### C6 -/

/-- C6, behavior of the code at the failing input: flowAlpha already holds
the artifact id artifact-1 (created at millisecond 1); a present_artifact
call dispatched at the same millisecond 1 builds the same id from Date.now(),
so the Flow ends with two artifacts both carrying the id artifact-1 and the
per-Flow id-uniqueness invariant is violated. -/
theorem present_artifact_duplicate_id :
    (findFlow (handleFunctionCall 1 fcPresent baseState).flows "A").map
        (fun f => f.artifacts.map Artifact.id)
      = some ["artifact-1", "artifact-1"]
  ∧ ¬ ((["artifact-1", "artifact-1"] : List String).Nodup) := by
  constructor
  · rfl
  · decide

end Fluid
